import Mathlib

/-!
Verification of the routing core of the trip-planner repository
(src/location.py, src/graphs.py, src/find_path.py).

Conventions of the shallow embedding:

* Python `float` values are dyadic rationals; coordinates are therefore modelled as `ℚ`,
  and `==`/`<`/`<=` on them are the exact rational comparisons that Python performs on
  floats.  The haversine distance `get_distance` computes with `math.sin` etc.; it is
  modelled over `ℝ` (section on `get_distance` below).  The routing functions only
  consume a distance function through comparisons, so they are parametrised by an
  arbitrary `dist : Location → Location → ℚ` standing for the (rational-valued) float
  function the source passes around; every theorem below is proved for every `dist`.
* Python `dict` and `set` are modelled by association lists / lists with structural
  equality of the stored values; insertion order is modelled by list order.  Crucially,
  `Location` and its subclasses are plain `@dataclass`es (`eq=True`, `frozen=False`), so
  their instances are unhashable (`__hash__` is `None`): every attempt to put one into a
  set or to use one as a dict key raises `TypeError: unhashable type`.  This is modelled
  by the primitive `hashLoc` below, which every set/dict operation keyed by a `Location`
  consults first.  Dictionaries keyed by strings or ints, and sets of identity-hashed
  `_Vertex` objects, are unaffected.
* A Python function that can raise is modelled with `Except`/`Option` or an explicit
  error constructor; a syntactically recursive Python function is modelled with an
  explicit fuel parameter counting nested calls (`none` = fuel exhausted).  Because the
  `TypeError` above fires before either recursive call in `find_path.py`, every call is
  in fact decided at depth 1, so the fuel is vestigial beyond distinguishing depth 0.
* `location.py` defines the dataclasses `Location`, `Landmark`, `Restaurant`, `Hotel`,
  `SubwayStation`.  The routing code only ever reads `name`, the coordinate pair and
  the dynamic class of an entity, so the class hierarchy is modelled by a `Role` tag;
  the unused payload fields (opening times, rating, time spent) are omitted.
-/

inductive Role where
  | landmark
  | restaurant
  | hotel
  | subwayStation
deriving DecidableEq, Repr

/-- A point of interest (`location.Location` and its dataclass subclasses).  `name` and the
`(lat, lon)` pair are the dataclass fields; `role` records the dynamic class.  Dataclass
equality compares the fields, which is the derived `DecidableEq`. -/
structure Location where
  name : String
  lat : ℚ
  lon : ℚ
  role : Role
deriving DecidableEq, Repr

/-- `graphs._Vertex`: `item` is the name used as the dictionary key, `location` the stored
entity, `neighbours` the adjacent vertices.  The source stores the neighbour set as a set of
`_Vertex` references; every such reference is a value of the `_vertices` dictionary and its
`location` field is never mutated, so we store the neighbours' `location` values. -/
structure Vertex where
  item : String
  location : Location
  neighbours : List Location
deriving DecidableEq, Repr

/-- `graphs.Graph`: `_vertices` is an insertion-ordered dictionary from name to vertex,
modelled as an association list (the key of an entry `v` is `v.item`). -/
structure Graph where
  vertices : List Vertex
deriving DecidableEq, Repr

/-- Python set insertion (`s.add(x)`): a no-op if the value is already present, else the
new element is appended. -/
def listInsert (l : List Location) (x : Location) : List Location :=
  if x ∈ l then l else l ++ [x]

namespace Graph

/-- `Graph.__init__`: the empty graph. -/
def empty : Graph := ⟨[]⟩

/-- Dictionary lookup `self._vertices[name]` (`none` models a `KeyError`). -/
def findVertex (g : Graph) (name : String) : Option Vertex :=
  g.vertices.find? (fun v => v.item == name)

/-- `Graph.add_vertex`: do nothing if `location.name` is already a key, else insert a new
vertex with no neighbours (dict insertion appends at the end). -/
def addVertex (g : Graph) (location : Location) : Graph :=
  match g.findVertex location.name with
  | some _ => g
  | none => ⟨g.vertices ++ [⟨location.name, location, []⟩]⟩

/-- Add `l` to the neighbour set of every entry keyed `name` (there is exactly one in a
well-formed graph).  Set insertion is a no-op if the value is already present. -/
def addNbr (vs : List Vertex) (name : String) (l : Location) : List Vertex :=
  vs.map (fun v =>
    if v.item == name then { v with neighbours := listInsert v.neighbours l } else v)

/-- `Graph.add_edge`: if both names are keys, add each stored location to the other's
neighbour set; else raise `ValueError` (the check happens before any mutation). -/
def addEdge (g : Graph) (item1 item2 : Location) : Except Unit Graph :=
  match g.findVertex item1.name, g.findVertex item2.name with
  | some v1, some v2 =>
      .ok ⟨addNbr (addNbr g.vertices item1.name v2.location) item2.name v1.location⟩
  | _, _ => .error ()

/-- `add_edge` at a call site that lets the `ValueError` escape: the graph value that the
caller still holds is the untouched one, since the source raises before mutating. -/
def addEdgeOrKeep (g : Graph) (item1 item2 : Location) : Graph :=
  match g.addEdge item1 item2 with
  | .ok g' => g'
  | .error _ => g

/-- `Graph.adjacent`: false unless both names are keys; otherwise compare `item2` against
the locations of `item1`'s neighbours (dataclass equality). -/
def adjacent (g : Graph) (item1 item2 : Location) : Bool :=
  match g.findVertex item1.name, g.findVertex item2.name with
  | some v1, some _ => v1.neighbours.contains item2
  | _, _ => false

/-- `Graph.get_neighbors` (`self._vertices[location.name].neighbours`).  A missing key is a
`KeyError` in the source; the routing code only calls this on locations that are vertices,
and we return `[]` in the impossible branch. -/
def getNeighbors (g : Graph) (location : Location) : List Location :=
  match g.findVertex location.name with
  | some v => v.neighbours
  | none => []

/-- `get_all_vertices`: the stored locations in insertion order. -/
def allLocations (g : Graph) : List Location := g.vertices.map (·.location)

end Graph

example : (Graph.empty.addVertex ⟨"a", 0, 0, .landmark⟩).vertices.length = 1 := by decide
example :
    (Graph.addEdgeOrKeep
      ((Graph.empty.addVertex ⟨"a", 0, 0, .landmark⟩).addVertex ⟨"b", 1, 0, .landmark⟩)
      ⟨"a", 0, 0, .landmark⟩ ⟨"b", 1, 0, .landmark⟩).adjacent
      ⟨"b", 1, 0, .landmark⟩ ⟨"a", 0, 0, .landmark⟩ = true := by decide
example : Graph.empty.addEdge ⟨"a", 0, 0, .landmark⟩ ⟨"b", 1, 0, .landmark⟩ = .error () := rfl

/-! ## `find_path.py`

Three type-level facts about the source govern this module's behaviour:

* `Location` and its subclasses are unhashable (see `hashLoc`), so the first set or dict
  operation keyed by a station raises `TypeError`: `visited.add(starter)` — the first
  statement of `estimate_nearest_subway` — and `visited.union({subway1})` — the first
  statement of `find_subway_path`'s non-base branch — always raise, as does the
  construction of `distances = {starting_station: 0}` in `find_path`.  Consequently
  neither recursive function ever reaches a recursive call.
* in `find_closest_subway`, the test `isinstance(neighbor, SubwayStation)` is applied to
  the `_Vertex` objects returned by `get_neighbors`, which are never `Location`
  instances; the test is always false, so the adjacent-station fast path never returns.
* in `reassign_distances` and `estimate_nearest_subway`, the guard `u not in visited`
  compares a `_Vertex` object `u` (hashed by identity, so the test itself does not
  raise) against a set of stations; a `_Vertex` is never equal to a dataclass value, so
  were that code ever reached the guard would be constantly true.  The embedding keeps
  the guard arguments and iterates over all neighbours.

The recursive functions keep a fuel parameter counting nested calls (`none` = fuel
exhausted); since the `TypeError` fires before either recursive call, every result is
already decided at fuel 1.
-/

/-- The errors the routing code can raise. -/
inductive PyError where
  | typeError
  | indexError
  | keyError
deriving DecidableEq, Repr

/-- Hashing a `Location`: `location.py` declares `Location` and its subclasses as plain
`@dataclass`es (`eq=True`, `frozen=False`), which sets `__hash__ = None`, so every
attempt to hash an instance — set insertion, set display, dict key — raises
`TypeError: unhashable type`. -/
def hashLoc (l : Location) : Except PyError Unit :=
  let _ := l
  .error .typeError

/-- The `distances` dictionary of `find_subway_path` (station ↦ edge count): the store
behind a dict keyed by stations, as an insertion-ordered association list.  No such
dictionary can actually be built (see `hashLoc`); carrying the store lets the functions
below be stated for an arbitrary handed-in dictionary value. -/
abbrev Distances : Type := List (Location × Nat)

/-- `visited.add(x)` on a set of stations: hashes `x` first, so it raises. -/
def setAdd (s : List Location) (x : Location) : Except PyError (List Location) :=
  match hashLoc x with
  | .error e => .error e
  | .ok _ => .ok (if x ∈ s then s else x :: s)

/-- `visited.union({x})`: building the set display `{x}` hashes `x`, so it raises. -/
def setUnionSingle (s : List Location) (x : Location) : Except PyError (List Location) :=
  match hashLoc x with
  | .error e => .error e
  | .ok _ => .ok (if x ∈ s then s else x :: s)

/-- The dict literal `{k: 0}` of `find_path` with a station key: hashes `k`, raising. -/
def dictSingle (k : Location) (v : Nat) : Except PyError Distances :=
  match hashLoc k with
  | .error e => .error e
  | .ok _ => .ok [(k, v)]

/-- `distances[l]`: hashes the key (raising), then looks it up (`KeyError` if absent). -/
def dGet (d : Distances) (l : Location) : Except PyError Nat :=
  match hashLoc l with
  | .error e => .error e
  | .ok _ =>
      match d.find? (fun p => p.1 == l) with
      | some p => .ok p.2
      | none => .error .keyError

/-- `l in distances`: hashes the key, so it raises. -/
def dMem (d : Distances) (l : Location) : Except PyError Bool :=
  match hashLoc l with
  | .error e => .error e
  | .ok _ => .ok (d.any (fun p => p.1 == l))

/-- `distances[l] = n`: hashes the key, so it raises. -/
def dSet (d : Distances) (l : Location) (n : Nat) : Except PyError Distances :=
  match hashLoc l with
  | .error e => .error e
  | .ok _ =>
      .ok (if d.any (fun p => p.1 == l) then
        d.map (fun p => if p.1 == l then (p.1, n) else p)
      else d ++ [(l, n)])

/-- `find_path.reassign_distances`: relax each neighbour `u` of `subway` to
`min(existing, distances[subway] + 1)`.  Every dict operation hashes a station key, so
the first neighbour processed raises `TypeError` (only a neighbourless vertex leaves the
dictionary untouched).  The `u not in visited` guard of the source is constantly true
(see the section comment); the `visited` argument is kept to mirror the signature. -/
def reassignDistances (g : Graph) (d : Distances) (subway : Location)
    (visited : List Location) : Except PyError Distances :=
  let _ := visited
  (g.getNeighbors subway).foldl
    (fun acc u =>
      match acc with
      | .error e => .error e
      | .ok d =>
          match dMem d u with
          | .error e => .error e
          | .ok m =>
              if ¬ m then
                match dGet d subway with
                | .error e => .error e
                | .ok b => dSet d u (b + 1)
              else
                match dGet d subway, dGet d u with
                | .error e, _ => .error e
                | .ok _, .error e => .error e
                | .ok b, .ok cur => if b + 1 < cur then dSet d u (b + 1) else .ok d)
    (.ok d)

/-- Stable insertion into a descending run of keyed stations. -/
def insertDescP (x : Location × Nat) : List (Location × Nat) → List (Location × Nat)
  | [] => [x]
  | y :: ys => if y.2 < x.2 then x :: y :: ys else y :: insertDescP x ys

/-- Python's stable `list.sort(reverse=True)` on precomputed keys. -/
def sortDescP (l : List (Location × Nat)) : List (Location × Nat) :=
  l.foldl (fun acc x => insertDescP x acc) []

/-- CPython's `sort(key=…)` first computes the key of every element in list order; here
each key computation is `distances[item]`, which hashes a station and raises. -/
def keyDistances (d : Distances) : List Location → Except PyError (List (Location × Nat))
  | [] => .ok []
  | n :: ns =>
      match dGet d n with
      | .error e => .error e
      | .ok k =>
          match keyDistances d ns with
          | .error e => .error e
          | .ok rest => .ok ((n, k) :: rest)

/-- `find_path.sort_by_distances`: all neighbours of `subway` (visited ones included),
sorted by known distance in descending order; raises at the first key lookup. -/
def sortByDistances (subway : Location) (g : Graph) (d : Distances) :
    Except PyError (List Location) :=
  match keyDistances d (g.getNeighbors subway) with
  | .error e => .error e
  | .ok keyed => .ok ((sortDescP keyed).map (fun p => p.1))

/-- Outcome of one `find_subway_path` call: a found path with the dictionary left
behind, the `None` "no path" return, or an uncaught exception (`TypeError` from the
set/dict operations on station keys, `IndexError` from `pop()` on an empty list). -/
inductive SPResult where
  | found (path : List Location) (d : Distances)
  | noPath (d : Distances)
  | raised (e : PyError)
deriving DecidableEq, Repr

/-- The `pop`/`while` loop of `find_subway_path`: try the candidates in order (the list
is already reversed, so the head has the smallest distance); a `noPath` child hands its
dictionary to the next attempt; fuel exhaustion and exceptions abort everything. -/
def tryList (rec : Location → Distances → Option SPResult) :
    List Location → Distances → Option SPResult
  | [], d => some (.noPath d)
  | c :: cs, d =>
      match rec c d with
      | none => none
      | some (.found p d1) => some (.found p d1)
      | some (.noPath d1) => tryList rec cs d1
      | some (.raised e) => some (.raised e)

/-- `path = [subway1]; path += rest_of_path`. -/
def wrapPath (s : Location) : Option SPResult → Option SPResult
  | some (.found p d) => some (.found (s :: p) d)
  | r => r

/-- The body of `find_subway_path` with the recursive call abstracted.  The base case
returns `[subway1]` before any set or dict operation; the non-base branch begins with
`new_visited = visited.union({subway1})`, which raises `TypeError` — everything after
it, translated below, is dead code in the source. -/
def fspBody (g : Graph) (subway2 : Location)
    (rec : Location → Distances → List Location → Option SPResult)
    (subway1 : Location) (d : Distances) (visited : List Location) : Option SPResult :=
  if subway1 = subway2 then some (.found [subway1] d)
  else
    match setUnionSingle visited subway1 with
    | .error e => some (.raised e)
    | .ok newVisited =>
        match reassignDistances g d subway1 newVisited with
        | .error e => some (.raised e)
        | .ok d1 =>
            match sortByDistances subway1 g d1 with
            | .error e => some (.raised e)
            | .ok ns =>
                match ns with
                | [] => some (.raised .indexError)
                | _ :: _ =>
                    wrapPath subway1
                      (tryList (fun c dd => rec c dd newVisited) ns.reverse d1)

/-- `find_path.find_subway_path`, by fuel on the nesting depth of recursive calls. -/
def fsp (g : Graph) (subway2 : Location) :
    Nat → Location → Distances → List Location → Option SPResult
  | 0, _, _, _ => none
  | fuel + 1, subway1, d, visited => fspBody g subway2 (fsp g subway2 fuel) subway1 d visited

/-- The loop of `find_closest_subway` over the neighbours: the `isinstance` test is
applied to `_Vertex` objects and is constantly false (see the section comment), so the
scan never returns a neighbour. -/
def firstStationNeighbour (g : Graph) (location : Location) : Option Location :=
  (g.getNeighbors location).find? (fun _ => false)

/-- The accumulator loop of `estimate_nearest_subway` — dead code in the source, which
has already raised at `visited.add(starter)` when this loop would run. -/
def closestNeighbour (dist : Location → Location → ℚ) (location starter : Location)
    (nbrs : List Location) : Location :=
  nbrs.foldl (fun closest u => if dist location u < dist location closest then u else closest)
    starter

/-- `find_path.estimate_nearest_subway`: its first statement `visited.add(starter)`
raises `TypeError` (stations are unhashable), so every call returns that error; the
hill-climb below the `setAdd` is the translation of the source's dead remainder. -/
def estimateNearest (dist : Location → Location → ℚ) (g : Graph) :
    Nat → Location → Location → List Location → Option (Except PyError Location)
  | 0, _, _, _ => none
  | fuel + 1, location, starter, visited =>
      match setAdd visited starter with
      | .error e => some (.error e)
      | .ok visited1 =>
          let closest := closestNeighbour dist location starter (g.getNeighbors starter)
          if closest = starter then some (.ok closest)
          else estimateNearest dist g fuel location closest visited1

/-- `find_path.find_closest_subway`: the fast path never fires, the seed station is
`list(…get_all_vertices())[0]` (`IndexError` on an empty subway graph), and the
hill-climb raises `TypeError` immediately — so no call ever returns a station.  The
outer `Option` is the fuel of the (never entered) hill-climb recursion. -/
def findClosestSubway (dist : Location → Location → ℚ) (cityGraph subwayGraph : Graph)
    (fuel : Nat) (location : Location) : Option (Except PyError Location) :=
  match firstStationNeighbour cityGraph location with
  | some t => some (.ok t)
  | none =>
      match subwayGraph.allLocations.head? with
      | none => some (.error .indexError)
      | some starter => estimateNearest dist subwayGraph fuel location starter []

/-- Outcome of `find_path.find_path`: a route, the explicit
`raise Exception('There is no path between these stations')`, or an uncaught error from
a helper. -/
inductive RouteResult where
  | route (r : List Location)
  | noPathError
  | raised (e : PyError)
deriving DecidableEq, Repr

/-- The `for location in locations_to_visit` loop of `find_path`.  `prev` is initialised
to the hotel by the caller and — exactly as in the source, which never reassigns it —
stays the hotel for every iteration, so the adjacency test always compares against the
hotel.  The transit branch calls `find_closest_subway` twice, builds
`distances = {starting_station: 0}` (which would raise even if the calls before it had
not) and runs `find_subway_path`. -/
def findPathLoop (dist : Location → Location → ℚ) (cityGraph subwayGraph : Graph)
    (prev : Location) (fuel : Nat) :
    List Location → List Location → Option RouteResult
  | [], path => some (.route path)
  | location :: rest, path =>
      if cityGraph.adjacent prev location = true then
        findPathLoop dist cityGraph subwayGraph prev fuel rest (path ++ [location])
      else
        match findClosestSubway dist cityGraph subwayGraph fuel prev with
        | none => none
        | some (.error e) => some (.raised e)
        | some (.ok startingStation) =>
            match findClosestSubway dist cityGraph subwayGraph fuel location with
            | none => none
            | some (.error e) => some (.raised e)
            | some (.ok endStation) =>
                match dictSingle startingStation 0 with
                | .error e => some (.raised e)
                | .ok d0 =>
                    match fsp subwayGraph endStation fuel startingStation d0 [] with
                    | none => none
                    | some (.raised e) => some (.raised e)
                    | some (.noPath _) => some .noPathError
                    | some (.found stationPath _) =>
                        findPathLoop dist cityGraph subwayGraph prev fuel rest
                          (path ++ stationPath ++ [location])

/-- `find_path.find_path`: start at the hotel (`city_graph.hotel`, passed explicitly
here) and process `chosen_locations + [hotel]`. -/
def findPath (dist : Location → Location → ℚ) (cityGraph subwayGraph : Graph)
    (hotel : Location) (chosenLocations : List Location) (fuel : Nat) :
    Option RouteResult :=
  findPathLoop dist cityGraph subwayGraph hotel fuel (chosenLocations ++ [hotel]) [hotel]

/-! ## `graphs.get_distance` and `graphs.load_city_graph`

`get_distance` evaluates `math.sin`, `math.cos`, `math.sqrt`, `math.atan2` on floats; the
exact-real semantics of those operations is modelled over `ℝ` (the definition is therefore
not executable — real trigonometry is not computable — which is why the routing functions
above take the distance function as a parameter instead). -/

/-- `math.atan2(y, x)` with the usual quadrant conventions. -/
noncomputable def atan2 (y x : ℝ) : ℝ :=
  if 0 < x then Real.arctan (y / x)
  else if x < 0 ∧ 0 ≤ y then Real.arctan (y / x) + Real.pi
  else if x < 0 ∧ y < 0 then Real.arctan (y / x) - Real.pi
  else if x = 0 ∧ 0 < y then Real.pi / 2
  else if x = 0 ∧ y < 0 then -(Real.pi / 2)
  else 0

/-- `math.radians`: degrees to radians. -/
noncomputable def radians (x : ℝ) : ℝ := x * (Real.pi / 180)

/-- The intermediate value `a` of `get_distance`:
`sin(delta_lat/2)**2 + cos(lat1_rad)*cos(lat2_rad)*sin(delta_lon/2)**2`. -/
noncomputable def haversineA (l1 l2 : Location) : ℝ :=
  Real.sin (radians ((l2.lat : ℝ) - (l1.lat : ℝ)) / 2) ^ 2 +
    Real.cos (radians (l1.lat : ℝ)) * Real.cos (radians (l2.lat : ℝ)) *
      Real.sin (radians ((l2.lon : ℝ) - (l1.lon : ℝ)) / 2) ^ 2

/-- `graphs.get_distance`: `r * c` with `r = 6371000` and
`c = 2 * atan2(sqrt(a), sqrt(1 - a))`. -/
noncomputable def get_distance (l1 l2 : Location) : ℝ :=
  6371000 * (2 * atan2 (Real.sqrt (haversineA l1 l2)) (Real.sqrt (1 - haversineA l1 l2)))

/-- The ordered pairs `(vertices[i], vertices[j])` for `i < j`, in the order the double
`for` loop of `load_city_graph` visits them. -/
def upairs : List Location → List (Location × Location)
  | [] => []
  | x :: xs => xs.map (fun y => (x, y)) ++ upairs xs

/-- The edge-adding double loop of `load_city_graph`: for each pair in order, add an edge
when the distance is at most the 1500 m threshold. -/
noncomputable def edgePass (dist : Location → Location → ℝ)
    (ps : List (Location × Location)) (g : Graph) : Graph :=
  ps.foldl (fun g p => if dist p.1 p.2 ≤ 1500 then g.addEdgeOrKeep p.1 p.2 else g) g

/-- The graph built by `graphs.load_city_graph` from the loaded entities `locs` (landmarks,
restaurants, subway stations, then the hotel — the CSV reading itself is out of scope):
add every entity as a vertex, then for every pair `i < j` of the vertex list add an edge
when the distance is at most 1500 (the `assert vertices[i] != vertices[j]` of the source
holds under the distinct-names hypothesis of the theorem below, and both pair members are
vertices, so `add_edge` cannot raise).  Parametrised by the distance function; the source
fixes `dist := get_distance`. -/
noncomputable def buildCityGraph (dist : Location → Location → ℝ) (locs : List Location) :
    Graph :=
  let g0 := locs.foldl Graph.addVertex Graph.empty
  edgePass dist (upairs g0.allLocations) g0

/-! ## Concrete scenarios

`load_subway_graph` builds a transit graph by adding all station vertices and then one
edge per line-adjacency row; `mkGraph` performs exactly those calls for given data.
(Graph construction involves no `Location`-keyed set or dict — `_vertices` is keyed by
strings and the neighbour sets hold identity-hashed `_Vertex` objects — so it does not
raise.) -/

def mkGraph (locs : List Location) (edges : List (Location × Location)) : Graph :=
  edges.foldl (fun g p => g.addEdgeOrKeep p.1 p.2) (locs.foldl Graph.addVertex Graph.empty)

/-! ### The linear chain S1–S2–S3–S4 (claim C2)

`find_subway_path(S1, S4, …)` takes the non-base branch and raises `TypeError` at its
first statement `visited.union({subway1})` — the set display `{subway1}` hashes the
unhashable station — whatever `distances` dictionary and `visited` set it is handed; the
prescribed entry state `{S1: 0}` cannot even be built (`find_path` raises the same
`TypeError` constructing it).  Only `find_subway_path(S, S) = [S]` holds: the base case
returns before any set or dict operation. -/

def c2S1 : Location := ⟨"s1", 0, 0, .subwayStation⟩
def c2S2 : Location := ⟨"s2", 1, 0, .subwayStation⟩
def c2S3 : Location := ⟨"s3", 2, 0, .subwayStation⟩
def c2S4 : Location := ⟨"s4", 3, 0, .subwayStation⟩

def c2Graph : Graph :=
  mkGraph [c2S1, c2S2, c2S3, c2S4] [(c2S1, c2S2), (c2S2, c2S3), (c2S3, c2S4)]

/-- Claim C2: refuted on the code — on the chain S1–S2–S3–S4, `find_subway_path(S1, S4)`
does not return `[S1, S2, S3, S4]`: for every call depth, every dictionary and every
visited set it raises `TypeError` before its first recursive call, and the prescribed
initial dictionary `{S1: 0}` is itself unconstructible (second conjunct).  The base-case
instance `find_subway_path(S, S) = [S]` does hold (third conjunct, at S = S4). -/
theorem find_subway_path_chain4_raises (fuel : Nat) (d : Distances) (v : List Location) :
    fsp c2Graph c2S4 (fuel + 1) c2S1 d v = some (.raised .typeError) ∧
      dictSingle c2S1 0 = .error .typeError ∧
      fsp c2Graph c2S4 (fuel + 1) c2S4 d v = some (.found [c2S4] d) :=
  ⟨rfl, rfl, rfl⟩

/-! ### The linear chain T1–T2–T3 (claim C3) -/

def c3T1 : Location := ⟨"t1", 0, 0, .subwayStation⟩
def c3T2 : Location := ⟨"t2", 1, 0, .subwayStation⟩
def c3T3 : Location := ⟨"t3", 2, 0, .subwayStation⟩

def c3Graph : Graph := mkGraph [c3T1, c3T2, c3T3] [(c3T1, c3T2), (c3T2, c3T3)]

/-- Claim C3: refuted on the code — the search never performs the claimed
visited-bounded recursion at all: on the chain T1–T2–T3, `find_subway_path(T1, T3)`
raises `TypeError` at `visited.union({subway1})` before trying any neighbour, for every
call depth and every handed-in state.  Each call does finish — by crashing — but not by
the claim's mechanism: no recursive descent, visited-bounded or otherwise, ever
happens. -/
theorem find_subway_path_chain3_raises (fuel : Nat) (d : Distances) (v : List Location) :
    fsp c3Graph c3T3 (fuel + 1) c3T1 d v = some (.raised .typeError) := rfl

/-! ### Two disjoint components S–A and E–F (claim C4) -/

def c4S : Location := ⟨"s", 0, 0, .subwayStation⟩
def c4A : Location := ⟨"a", 1, 0, .subwayStation⟩
def c4E : Location := ⟨"e", 5, 0, .subwayStation⟩
def c4F : Location := ⟨"f", 6, 0, .subwayStation⟩

def c4Graph : Graph := mkGraph [c4S, c4A, c4E, c4F] [(c4S, c4A), (c4E, c4F)]

/-- Claim C4: refuted on the code — on the network with the two disjoint components S–A
and E–F, `find_subway_path(S, E)` does not return `None`: it raises `TypeError` on the
very first call, before examining any neighbour, exactly as it does on connected
inputs, so unreachability is never detected and `find_path`'s
`raise Exception('There is no path between these stations')` can never run
(`find_path` crashes even earlier, inside `find_closest_subway`). -/
theorem find_subway_path_disconnected_raises (fuel : Nat) (d : Distances)
    (v : List Location) :
    fsp c4Graph c4E (fuel + 1) c4S d v = some (.raised .typeError) := rfl

/-! ### RouteBuilder step rule (claim C1)

The claim's own scenario: lodging L adjacent to stop A; stop B served only by stations X
(near A) and Y (near B); transit chain X–M–Y.  Two independent defects defeat the
claimed step rule: `prev` is initialised to the hotel and never reassigned inside the
loop, so every stop's adjacency test compares against L rather than against the
previous route point; and the first stop needing transit calls `find_closest_subway`,
which raises `TypeError` in the hill-climb (`visited.add` of an unhashable station). -/

def c1L : Location := ⟨"l", 0, 0, .hotel⟩
def c1A : Location := ⟨"a", 1, 0, .landmark⟩
def c1B : Location := ⟨"b", 10, 0, .landmark⟩
def c1X : Location := ⟨"x", 2, 0, .subwayStation⟩
def c1M : Location := ⟨"m", 5, 0, .subwayStation⟩
def c1Y : Location := ⟨"y", 9, 0, .subwayStation⟩

def c1City : Graph :=
  mkGraph [c1L, c1A, c1B, c1X, c1M, c1Y] [(c1L, c1A), (c1A, c1X), (c1B, c1Y)]

def c1Subway : Graph := mkGraph [c1X, c1M, c1Y] [(c1X, c1M), (c1M, c1Y)]

/-- Claim C1: refuted on the code — in the claim's scenario, requesting `[A, B]` does
not yield `[L, A, X, M, Y, B, L]`: A is appended as a walking hop, and at B — not
adjacent to the hotel, which is what the never-reassigned `prev` still holds — the
transit branch calls `find_closest_subway`, which raises `TypeError`; `find_path`
propagates the crash and returns no route, for every distance function and call
depth. -/
theorem find_path_scenario_raises (dist : Location → Location → ℚ) (fuel : Nat) :
    c1City.adjacent c1L c1A = true ∧ c1City.adjacent c1L c1B = false ∧
      findPath dist c1City c1Subway c1L [c1A, c1B] (fuel + 1) =
        some (.raised .typeError) :=
  ⟨rfl, rfl, rfl⟩

/-! ### The empty itinerary (claim C10) -/

lemma findPathLoop_nil (dist : Location → Location → ℚ) (cg sg : Graph) (prev : Location)
    (fuel : Nat) (path : List Location) :
    findPathLoop dist cg sg prev fuel [] path = some (.route path) := rfl

lemma findPathLoop_cons (dist : Location → Location → ℚ) (cg sg : Graph) (prev : Location)
    (fuel : Nat) (location : Location) (rest path : List Location) :
    findPathLoop dist cg sg prev fuel (location :: rest) path =
      if cg.adjacent prev location = true then
        findPathLoop dist cg sg prev fuel rest (path ++ [location])
      else
        match findClosestSubway dist cg sg fuel prev with
        | none => none
        | some (.error e) => some (.raised e)
        | some (.ok startingStation) =>
            match findClosestSubway dist cg sg fuel location with
            | none => none
            | some (.error e) => some (.raised e)
            | some (.ok endStation) =>
                match dictSingle startingStation 0 with
                | .error e => some (.raised e)
                | .ok d0 =>
                    match fsp sg endStation fuel startingStation d0 [] with
                    | none => none
                    | some (.raised e) => some (.raised e)
                    | some (.noPath _) => some .noPathError
                    | some (.found stationPath _) =>
                        findPathLoop dist cg sg prev fuel rest
                          (path ++ stationPath ++ [location]) := rfl

lemma firstStationNeighbour_eq_none (g : Graph) (l : Location) :
    firstStationNeighbour g l = none := by
  unfold firstStationNeighbour
  exact List.find?_eq_none.mpr (fun x _ => by simp)

def c10H : Location := ⟨"h", 0, 0, .hotel⟩
def c10S : Location := ⟨"s", 1, 0, .subwayStation⟩
def c10City : Graph := mkGraph [c10H, c10S] []
def c10Subway : Graph := mkGraph [c10S] []
def c10dist : Location → Location → ℚ := fun _ _ => 0

/-- Counterexample to claim C10 as stated: on a concrete instance (hotel H, one station
S, no proximity edges) `find_path([])` raises `TypeError` inside `find_closest_subway`,
and in particular does not return the claimed route `[hotel, s, hotel]`. -/
theorem find_path_empty_itinerary_counterexample :
    findPath c10dist c10City c10Subway c10H [] 1 = some (.raised .typeError) ∧
      findPath c10dist c10City c10Subway c10H [] 1 ≠
        some (.route [c10H, c10S, c10H]) := by
  decide

/-- Claim C10 as amended: for an empty list of chosen locations the only stop processed
is the hotel itself, the self-adjacency test fails as the claim argues, and the transit
branch is entered — but there `find_closest_subway` raises `TypeError` (`visited.add`
of an unhashable station; the adjacent-station scan never fires), so `find_path([])`
raises instead of returning a route: never `[hotel]` or `[hotel, hotel]`, but not
`[hotel, s, hotel]` either. -/
theorem find_path_empty_itinerary_raises (dist : Location → Location → ℚ)
    (cityGraph subwayGraph : Graph) (hotel seed : Location) (fuel : Nat)
    (hadj : cityGraph.adjacent hotel hotel = false)
    (hseed : subwayGraph.allLocations.head? = some seed) :
    findPath dist cityGraph subwayGraph hotel [] (fuel + 1) = some (.raised .typeError) ∧
      ∀ r : List Location,
        findPath dist cityGraph subwayGraph hotel [] (fuel + 1) ≠ some (.route r) := by
  have hfcs : findClosestSubway dist cityGraph subwayGraph (fuel + 1) hotel =
      some (.error .typeError) := by
    unfold findClosestSubway
    rw [firstStationNeighbour_eq_none, hseed]
    rfl
  have h1 : findPath dist cityGraph subwayGraph hotel [] (fuel + 1) =
      some (.raised .typeError) := by
    show findPathLoop dist cityGraph subwayGraph hotel (fuel + 1) [hotel] [hotel] =
      some (.raised .typeError)
    rw [findPathLoop_cons, if_neg (by simp [hadj]), hfcs]
  refine ⟨h1, fun r h => ?_⟩
  rw [h1] at h
  exact RouteResult.noConfusion (Option.some.inj h)

/-- Witness for the amended C10 on the concrete instance above. -/
theorem find_path_empty_itinerary_raises_witness :
    findPath c10dist c10City c10Subway c10H [] 1 = some (.raised .typeError) ∧
      ∀ r : List Location,
        findPath c10dist c10City c10Subway c10H [] 1 ≠ some (.route r) :=
  find_path_empty_itinerary_raises c10dist c10City c10Subway c10H c10S 0 (by decide)
    (by decide)

/-! ### `add_edge` error behaviour (claim C8) -/

/-- Claim C8 (confirmed): `add_edge(item1, item2)` raises `ValueError` exactly when the
name of `item1` or of `item2` is not a key of `_vertices` (entity identity is the name),
and in the error case the graph is unchanged — the membership check happens before either
neighbour set is touched, so the graph value the caller holds is the untouched one. -/
theorem add_edge_error_iff (g : Graph) (i1 i2 : Location) :
    (g.addEdge i1 i2 = .error () ↔
        ((g.findVertex i1.name).isNone ∨ (g.findVertex i2.name).isNone)) ∧
      (((g.findVertex i1.name).isNone ∨ (g.findVertex i2.name).isNone) →
        g.addEdgeOrKeep i1 i2 = g) := by
  cases h1 : g.findVertex i1.name <;> cases h2 : g.findVertex i2.name <;>
    simp [Graph.addEdge, Graph.addEdgeOrKeep, h1, h2]

def c8X : Location := ⟨"x", 0, 0, .landmark⟩
def c8Y : Location := ⟨"y", 1, 0, .landmark⟩

/-- Witness for C8 on the empty graph: both endpoints missing, error raised, graph kept. -/
theorem add_edge_error_iff_witness :
    Graph.empty.addEdge c8X c8Y = .error () ∧ Graph.empty.addEdgeOrKeep c8X c8Y = Graph.empty :=
  ⟨(add_edge_error_iff Graph.empty c8X c8Y).1.mpr (Or.inl (by decide)),
   (add_edge_error_iff Graph.empty c8X c8Y).2 (Or.inl (by decide))⟩

/-! ### Properties of `get_distance` (claim C9) -/

lemma haversineA_self (l : Location) : haversineA l l = 0 := by
  unfold haversineA radians
  simp

lemma radians_sub_comm (x y : ℝ) : radians (x - y) = -(radians (y - x)) := by
  unfold radians; ring

lemma sin_radians_sub_sq (x y : ℝ) :
    Real.sin (radians (x - y) / 2) ^ 2 = Real.sin (radians (y - x) / 2) ^ 2 := by
  rw [radians_sub_comm, neg_div, Real.sin_neg, neg_sq]

lemma haversineA_comm (l1 l2 : Location) : haversineA l1 l2 = haversineA l2 l1 := by
  unfold haversineA
  rw [sin_radians_sub_sq, sin_radians_sub_sq ((l2.lon : ℝ)) ((l1.lon : ℝ))]
  ring

lemma atan2_zero_one : atan2 0 1 = 0 := by
  unfold atan2
  rw [if_pos one_pos]
  simp

/-- Claim C9 (confirmed, with float arithmetic modelled by exact real arithmetic):
`get_distance` is a pure function of the two coordinate pairs; `get_distance(A, A) = 0`
(the haversine term vanishes and `atan2(0, 1) = 0`), and `get_distance(A, B) =
get_distance(B, A)` (the haversine term is symmetric). -/
theorem get_distance_self_and_comm (l1 l2 : Location) :
    get_distance l1 l1 = 0 ∧ get_distance l1 l2 = get_distance l2 l1 := by
  constructor
  · unfold get_distance
    rw [haversineA_self]
    simp [atan2_zero_one]
  · unfold get_distance
    rw [haversineA_comm]

/-! ## Well-formedness and the graph invariants

`GNames` holds of every graph reachable by `add_vertex`/`add_edge` from the empty graph:
the dictionary keys are pairwise distinct and every entry is keyed by its own location's
name.  `NoSelfLoop` and `SymAdj` are the two invariants of claim C7. -/

def GNames (g : Graph) : Prop :=
  (g.vertices.map Vertex.item).Nodup ∧ ∀ v ∈ g.vertices, v.item = v.location.name

/-- No vertex is its own neighbour. -/
def NoSelfLoop (g : Graph) : Prop := ∀ v ∈ g.vertices, v.location ∉ v.neighbours

/-- Adjacency is symmetric: every neighbour `l` of a vertex `v` is itself stored (keyed by
`l.name`, holding `l`) and has `v`'s location among its neighbours. -/
def SymAdj (g : Graph) : Prop :=
  ∀ v ∈ g.vertices, ∀ l ∈ v.neighbours,
    ∃ w ∈ g.vertices, w.item = l.name ∧ w.location = l ∧ v.location ∈ w.neighbours

lemma mem_listInsert {l : List Location} {x a : Location} :
    a ∈ listInsert l x ↔ a ∈ l ∨ a = x := by
  unfold listInsert
  by_cases h : x ∈ l
  · rw [if_pos h]
    exact ⟨Or.inl, fun h' => h'.elim id (fun e => e ▸ h)⟩
  · rw [if_neg h]
    simp

lemma findVertex_eq_none_iff {g : Graph} {nm : String} :
    g.findVertex nm = none ↔ ∀ v ∈ g.vertices, v.item ≠ nm := by
  unfold Graph.findVertex
  rw [List.find?_eq_none]
  simp

lemma findVertex_stored {g : Graph} (hg : GNames g) {x : Location}
    (hx : x ∈ g.allLocations) :
    ∃ v, g.findVertex x.name = some v ∧ v ∈ g.vertices ∧ v.item = x.name ∧ v.location = x := by
  obtain ⟨v, hv, hvl⟩ : ∃ v ∈ g.vertices, v.location = x := by
    simpa [Graph.allLocations] using hx
  cases hfind : g.findVertex x.name with
  | none =>
      exact absurd (by rw [hg.2 v hv, hvl]) (findVertex_eq_none_iff.mp hfind v hv)
  | some w =>
      have hw : w ∈ g.vertices := List.mem_of_find?_eq_some hfind
      have hwitem : w.item = x.name := by
        have := List.find?_some hfind
        simpa using this
      refine ⟨w, rfl, hw, hwitem, ?_⟩
      have hvitem : v.item = x.name := by rw [hg.2 v hv, hvl]
      have hwv : w = v := List.inj_on_of_nodup_map hg.1 hw hv (by rw [hwitem, hvitem])
      rw [hwv, hvl]

lemma stored_name_inj {g : Graph} (hg : GNames g) {A B : Location}
    (hA : A ∈ g.allLocations) (hB : B ∈ g.allLocations) (h : A.name = B.name) : A = B := by
  obtain ⟨v, hv1, -, -, hv4⟩ := findVertex_stored hg hA
  obtain ⟨w, hw1, -, -, hw4⟩ := findVertex_stored hg hB
  rw [h, hw1] at hv1
  rw [← hv4, ← hw4, Option.some.inj hv1]

lemma addVertex_vertices_of_none {g : Graph} {l : Location} (h : g.findVertex l.name = none) :
    (g.addVertex l).vertices = g.vertices ++ [⟨l.name, l, []⟩] := by
  unfold Graph.addVertex
  rw [h]

lemma foldl_addVertex_vertices (locs : List Location) : ∀ g : Graph,
    (∀ l ∈ locs, g.findVertex l.name = none) → (locs.map Location.name).Nodup →
    (locs.foldl Graph.addVertex g).vertices =
      g.vertices ++ locs.map (fun l => ⟨l.name, l, []⟩) := by
  induction locs with
  | nil => intro g _ _; simp
  | cons l ls ih =>
      intro g hdisj hnodup
      have hnd : l.name ∉ ls.map Location.name ∧ (ls.map Location.name).Nodup := by
        rw [List.map_cons, List.nodup_cons] at hnodup
        exact hnodup
      have h0 : g.findVertex l.name = none := hdisj l (List.mem_cons_self _ _)
      have h1 := addVertex_vertices_of_none h0
      have hdisj' : ∀ l' ∈ ls, (g.addVertex l).findVertex l'.name = none := by
        intro l' hl'
        rw [findVertex_eq_none_iff]
        intro v hv
        rw [h1] at hv
        rcases List.mem_append.mp hv with h | h
        · exact findVertex_eq_none_iff.mp (hdisj l' (List.mem_cons_of_mem _ hl')) v h
        · have hveq : v = ⟨l.name, l, []⟩ := by simpa using h
          rw [hveq]
          show l.name ≠ l'.name
          intro he
          apply hnd.1
          rw [he]
          exact List.mem_map_of_mem Location.name hl'
      rw [List.foldl_cons, ih (g.addVertex l) hdisj' hnd.2, h1, List.append_assoc]
      simp

/-- The combined effect of `add_edge`'s two neighbour-set updates on one vertex entry,
when the two keys differ. -/
def edgeUpd (n1 n2 : String) (a b : Location) (w : Vertex) : Vertex :=
  if w.item = n1 then { w with neighbours := listInsert w.neighbours a }
  else if w.item = n2 then { w with neighbours := listInsert w.neighbours b }
  else w

lemma edgeUpd_item (n1 n2 : String) (a b : Location) (w : Vertex) :
    (edgeUpd n1 n2 a b w).item = w.item := by
  unfold edgeUpd
  by_cases h1 : w.item = n1
  · rw [if_pos h1]
  · rw [if_neg h1]
    by_cases h2 : w.item = n2
    · rw [if_pos h2]
    · rw [if_neg h2]

lemma edgeUpd_location (n1 n2 : String) (a b : Location) (w : Vertex) :
    (edgeUpd n1 n2 a b w).location = w.location := by
  unfold edgeUpd
  by_cases h1 : w.item = n1
  · rw [if_pos h1]
  · rw [if_neg h1]
    by_cases h2 : w.item = n2
    · rw [if_pos h2]
    · rw [if_neg h2]

lemma addNbr_addNbr (vs : List Vertex) (n1 n2 : String) (a b : Location) (h : n1 ≠ n2) :
    Graph.addNbr (Graph.addNbr vs n1 a) n2 b = vs.map (edgeUpd n1 n2 a b) := by
  unfold Graph.addNbr edgeUpd
  rw [List.map_map]
  congr 1
  funext w
  by_cases h1 : w.item = n1
  · simp [Function.comp, h1, h]
  · by_cases h2 : w.item = n2
    · simp [Function.comp, h1, h2, Ne.symm h]
    · simp [Function.comp, h1, h2]

lemma addEdgeOrKeep_ok {g : Graph} {x y : Location} {vx vy : Vertex}
    (hfx : g.findVertex x.name = some vx) (hfy : g.findVertex y.name = some vy) :
    g.addEdgeOrKeep x y =
      ⟨Graph.addNbr (Graph.addNbr g.vertices x.name vy.location) y.name vx.location⟩ := by
  unfold Graph.addEdgeOrKeep Graph.addEdge
  rw [hfx, hfy]

lemma addEdgeOrKeep_shape (g : Graph) (x y : Location) :
    g.addEdgeOrKeep x y = g ∨
      ∃ vx vy, g.findVertex x.name = some vx ∧ g.findVertex y.name = some vy ∧
        g.addEdgeOrKeep x y =
          ⟨Graph.addNbr (Graph.addNbr g.vertices x.name vy.location) y.name vx.location⟩ := by
  cases hfx : g.findVertex x.name with
  | none =>
      left
      unfold Graph.addEdgeOrKeep Graph.addEdge
      rw [hfx]
  | some vx =>
      cases hfy : g.findVertex y.name with
      | none =>
          left
          unfold Graph.addEdgeOrKeep Graph.addEdge
          rw [hfx, hfy]
      | some vy => exact Or.inr ⟨vx, vy, rfl, rfl, addEdgeOrKeep_ok hfx hfy⟩

lemma addNbr_map_item (vs : List Vertex) (n : String) (l : Location) :
    (Graph.addNbr vs n l).map Vertex.item = vs.map Vertex.item := by
  unfold Graph.addNbr
  rw [List.map_map]
  congr 1
  funext w
  by_cases h : w.item = n <;> simp [Function.comp, h]

lemma addNbr_map_location (vs : List Vertex) (n : String) (l : Location) :
    (Graph.addNbr vs n l).map Vertex.location = vs.map Vertex.location := by
  unfold Graph.addNbr
  rw [List.map_map]
  congr 1
  funext w
  by_cases h : w.item = n <;> simp [Function.comp, h]

lemma addEdgeOrKeep_allLocations (g : Graph) (x y : Location) :
    (g.addEdgeOrKeep x y).allLocations = g.allLocations := by
  rcases addEdgeOrKeep_shape g x y with h | ⟨vx, vy, -, -, h⟩
  · rw [h]
  · rw [h]
    show (Graph.addNbr _ _ _).map Vertex.location = _
    rw [addNbr_map_location, addNbr_map_location]
    rfl

lemma mem_addNbr {vs : List Vertex} {n : String} {l : Location} {w : Vertex}
    (h : w ∈ Graph.addNbr vs n l) :
    ∃ v ∈ vs, w.item = v.item ∧ w.location = v.location ∧
      (w.neighbours = v.neighbours ∨ w.neighbours = listInsert v.neighbours l) := by
  unfold Graph.addNbr at h
  obtain ⟨v, hv, he⟩ := List.mem_map.mp h
  by_cases hc : v.item = n
  · rw [if_pos (by simpa using hc)] at he
    exact ⟨v, hv, by rw [← he], by rw [← he], Or.inr (by rw [← he])⟩
  · rw [if_neg (by simpa using hc)] at he
    exact ⟨v, hv, by rw [← he], by rw [← he], Or.inl (by rw [← he])⟩

lemma gnames_addEdgeOrKeep {g : Graph} (hg : GNames g) (x y : Location) :
    GNames (g.addEdgeOrKeep x y) := by
  rcases addEdgeOrKeep_shape g x y with h | ⟨vx, vy, -, -, h⟩
  · rw [h]; exact hg
  · rw [h]
    constructor
    · show ((Graph.addNbr _ _ _).map Vertex.item).Nodup
      rw [addNbr_map_item, addNbr_map_item]
      exact hg.1
    · intro w hw
      obtain ⟨v1, hv1, hi1, hl1, -⟩ := mem_addNbr hw
      obtain ⟨v0, hv0, hi0, hl0, -⟩ := mem_addNbr hv1
      rw [hi1, hl1, hi0, hl0]
      exact hg.2 v0 hv0

lemma findVertex_map_edgeUpd (vs : List Vertex) (n1 n2 : String) (a b : Location)
    (nm : String) :
    Graph.findVertex ⟨vs.map (edgeUpd n1 n2 a b)⟩ nm =
      (Graph.findVertex ⟨vs⟩ nm).map (edgeUpd n1 n2 a b) := by
  unfold Graph.findVertex
  show (vs.map (edgeUpd n1 n2 a b)).find? (fun v => v.item == nm) = _
  have hp : ((fun v : Vertex => v.item == nm) ∘ edgeUpd n1 n2 a b) =
      (fun v : Vertex => v.item == nm) := by
    funext w
    show ((edgeUpd n1 n2 a b w).item == nm) = (w.item == nm)
    rw [edgeUpd_item]
  rw [List.find?_map, hp]

lemma edgeUpd_neighbours_first {n1 n2 : String} {a b : Location} {w : Vertex}
    (h : w.item = n1) :
    (edgeUpd n1 n2 a b w).neighbours = listInsert w.neighbours a := by
  unfold edgeUpd
  rw [if_pos h]

lemma edgeUpd_neighbours_second {n1 n2 : String} {a b : Location} {w : Vertex}
    (h1 : ¬ w.item = n1) (h2 : w.item = n2) :
    (edgeUpd n1 n2 a b w).neighbours = listInsert w.neighbours b := by
  unfold edgeUpd
  rw [if_neg h1, if_pos h2]

lemma edgeUpd_of_ne {n1 n2 : String} {a b : Location} {w : Vertex}
    (h1 : ¬ w.item = n1) (h2 : ¬ w.item = n2) : edgeUpd n1 n2 a b w = w := by
  unfold edgeUpd
  rw [if_neg h1, if_neg h2]

lemma mem_edgeUpd_neighbours {n1 n2 : String} {a b : Location} {w : Vertex} {l : Location}
    (h : l ∈ w.neighbours) : l ∈ (edgeUpd n1 n2 a b w).neighbours := by
  by_cases h1 : w.item = n1
  · rw [edgeUpd_neighbours_first h1]
    exact mem_listInsert.mpr (Or.inl h)
  · by_cases h2 : w.item = n2
    · rw [edgeUpd_neighbours_second h1 h2]
      exact mem_listInsert.mpr (Or.inl h)
    · rw [edgeUpd_of_ne h1 h2]
      exact h

lemma getNeighbors_addEdgeOrKeep {g : Graph} (hg : GNames g) {x y : Location}
    (hx : x ∈ g.allLocations) (hy : y ∈ g.allLocations) (hxy : x.name ≠ y.name)
    (A : Location) :
    (g.addEdgeOrKeep x y).getNeighbors A =
      if A.name = x.name then listInsert (g.getNeighbors A) y
      else if A.name = y.name then listInsert (g.getNeighbors A) x
      else g.getNeighbors A := by
  obtain ⟨vx, hfx, hvx, hix, hlx⟩ := findVertex_stored hg hx
  obtain ⟨vy, hfy, hvy, hiy, hly⟩ := findVertex_stored hg hy
  rw [addEdgeOrKeep_ok hfx hfy, hlx, hly]
  unfold Graph.getNeighbors
  rw [show Graph.addNbr (Graph.addNbr g.vertices x.name y) y.name x =
        g.vertices.map (edgeUpd x.name y.name y x) from addNbr_addNbr _ _ _ _ _ hxy]
  rw [findVertex_map_edgeUpd]
  cases hfA : g.findVertex A.name with
  | none =>
      have h1 : A.name ≠ x.name := by
        intro he; rw [he, hfx] at hfA; exact Option.noConfusion hfA
      have h2 : A.name ≠ y.name := by
        intro he; rw [he, hfy] at hfA; exact Option.noConfusion hfA
      rw [if_neg h1, if_neg h2]
      rfl
  | some w =>
      have hwitem : w.item = A.name := by simpa using List.find?_some hfA
      by_cases h1 : A.name = x.name
      · have hwx : w = vx := by
          rw [h1, hfx] at hfA
          exact (Option.some.inj hfA).symm
        rw [if_pos h1]
        show (edgeUpd x.name y.name y x w).neighbours = listInsert w.neighbours y
        exact edgeUpd_neighbours_first (by rw [hwitem, h1])
      · by_cases h2 : A.name = y.name
        · rw [if_neg h1, if_pos h2]
          show (edgeUpd x.name y.name y x w).neighbours = listInsert w.neighbours x
          exact edgeUpd_neighbours_second (by rw [hwitem]; exact h1) (by rw [hwitem, h2])
        · rw [if_neg h1, if_neg h2]
          show (edgeUpd x.name y.name y x w).neighbours = w.neighbours
          rw [edgeUpd_of_ne (by rw [hwitem]; exact h1) (by rw [hwitem]; exact h2)]

/-- The invariant carried through every `add_vertex`/`add_edge` call. -/
def GraphInv (g : Graph) : Prop := GNames g ∧ NoSelfLoop g ∧ SymAdj g

lemma inv_empty : GraphInv Graph.empty := by
  refine ⟨⟨by simp [Graph.empty], ?_⟩, ?_, ?_⟩ <;>
    · intro v hv
      exact absurd hv (List.not_mem_nil v)

lemma inv_addVertex {g : Graph} (h : GraphInv g) (l : Location) : GraphInv (g.addVertex l) := by
  obtain ⟨⟨hnd, hitem⟩, hnsl, hsym⟩ := h
  unfold Graph.addVertex
  cases hf : g.findVertex l.name with
  | some v => exact ⟨⟨hnd, hitem⟩, hnsl, hsym⟩
  | none =>
      have hfresh : l.name ∉ g.vertices.map Vertex.item := by
        intro hmem
        obtain ⟨v, hv, hveq⟩ := List.mem_map.mp hmem
        exact findVertex_eq_none_iff.mp hf v hv hveq
      show GraphInv ⟨g.vertices ++ [⟨l.name, l, []⟩]⟩
      refine ⟨⟨?_, ?_⟩, ?_, ?_⟩
      · show ((g.vertices ++ [(⟨l.name, l, []⟩ : Vertex)]).map Vertex.item).Nodup
        rw [List.map_append]
        refine List.Nodup.append hnd (by simp) ?_
        intro a ha hb
        have : a = l.name := by simpa using hb
        rw [this] at ha
        exact hfresh ha
      · intro v hv
        rcases List.mem_append.mp hv with hv | hv
        · exact hitem v hv
        · have : v = ⟨l.name, l, []⟩ := by simpa using hv
          rw [this]
      · intro v hv
        rcases List.mem_append.mp hv with hv | hv
        · exact hnsl v hv
        · have : v = ⟨l.name, l, []⟩ := by simpa using hv
          rw [this]
          exact List.not_mem_nil _
      · intro v hv l' hl'
        rcases List.mem_append.mp hv with hv | hv
        · obtain ⟨w, hw, hw1, hw2, hw3⟩ := hsym v hv l' hl'
          exact ⟨w, List.mem_append_left _ hw, hw1, hw2, hw3⟩
        · have : v = ⟨l.name, l, []⟩ := by simpa using hv
          rw [this] at hl'
          exact absurd hl' (List.not_mem_nil _)

lemma inv_addEdgeOrKeep {g : Graph} (h : GraphInv g) {x y : Location} (hname : x.name ≠ y.name) :
    GraphInv (g.addEdgeOrKeep x y) := by
  rcases addEdgeOrKeep_shape g x y with he | ⟨vx, vy, hfx, hfy, he⟩
  · rw [he]; exact h
  · obtain ⟨hg, hnsl, hsym⟩ := h
    have hvx : vx ∈ g.vertices := List.mem_of_find?_eq_some hfx
    have hvy : vy ∈ g.vertices := List.mem_of_find?_eq_some hfy
    have hix : vx.item = x.name := by simpa using List.find?_some hfx
    have hiy : vy.item = y.name := by simpa using List.find?_some hfy
    have hlx : vx.location.name = x.name := by rw [← hg.2 vx hvx, hix]
    have hly : vy.location.name = y.name := by rw [← hg.2 vy hvy, hiy]
    rw [he, addNbr_addNbr _ _ _ _ _ hname]
    set F := edgeUpd x.name y.name vy.location vx.location with hF
    have hFitems : (g.vertices.map F).map Vertex.item = g.vertices.map Vertex.item := by
      rw [List.map_map]
      congr 1
      funext w
      exact edgeUpd_item _ _ _ _ w
    refine ⟨⟨?_, ?_⟩, ?_, ?_⟩
    · show ((g.vertices.map F).map Vertex.item).Nodup
      rw [hFitems]
      exact hg.1
    · intro w hw
      obtain ⟨v, hv, hveq⟩ := List.mem_map.mp hw
      rw [← hveq, hF, edgeUpd_item, edgeUpd_location]
      exact hg.2 v hv
    · -- no self-loops
      intro w hw
      obtain ⟨v, hv, hveq⟩ := List.mem_map.mp hw
      rw [← hveq, hF, edgeUpd_location]
      by_cases h1 : v.item = x.name
      · rw [edgeUpd_neighbours_first h1]
        intro hmem
        rcases mem_listInsert.mp hmem with hmem | hmem
        · exact hnsl v hv hmem
        · have : v.location.name = x.name := by rw [← hg.2 v hv, h1]
          rw [hmem, hly] at this
          exact hname this.symm
      · by_cases h2 : v.item = y.name
        · rw [edgeUpd_neighbours_second h1 h2]
          intro hmem
          rcases mem_listInsert.mp hmem with hmem | hmem
          · exact hnsl v hv hmem
          · have : v.location.name = y.name := by rw [← hg.2 v hv, h2]
            rw [hmem, hlx] at this
            exact hname this
        · rw [edgeUpd_of_ne h1 h2]
          exact hnsl v hv
    · -- symmetry
      intro w hw l hl
      obtain ⟨v, hv, hveq⟩ := List.mem_map.mp hw
      have hwloc : w.location = v.location := by rw [← hveq, hF, edgeUpd_location]
      have hold : ∀ l', l' ∈ v.neighbours →
          ∃ w' ∈ g.vertices.map F, w'.item = l'.name ∧ w'.location = l' ∧
            w.location ∈ w'.neighbours := by
        intro l' hl'
        obtain ⟨w0, hw0, h01, h02, h03⟩ := hsym v hv l' hl'
        refine ⟨F w0, List.mem_map_of_mem F hw0, ?_, ?_, ?_⟩
        · rw [hF, edgeUpd_item]; exact h01
        · rw [hF, edgeUpd_location]; exact h02
        · rw [hwloc]
          exact mem_edgeUpd_neighbours h03
      by_cases h1 : v.item = x.name
      · have hvvx : v = vx := List.inj_on_of_nodup_map hg.1 hv hvx (by rw [h1, hix])
        have hlw : l ∈ listInsert v.neighbours vy.location := by
          rw [← @edgeUpd_neighbours_first x.name y.name vy.location vx.location v h1, ← hF,
            hveq]
          exact hl
        rcases mem_listInsert.mp hlw with hmem | hmem
        · exact hold l hmem
        · refine ⟨F vy, List.mem_map_of_mem F hvy, ?_, ?_, ?_⟩
          · rw [hF, edgeUpd_item, hiy, hmem, hly]
          · rw [hF, edgeUpd_location, hmem]
          · have hne : ¬ vy.item = x.name := by rw [hiy]; exact Ne.symm hname
            rw [hF, edgeUpd_neighbours_second hne hiy]
            rw [hwloc, hvvx]
            exact mem_listInsert.mpr (Or.inr rfl)
      · by_cases h2 : v.item = y.name
        · have hvvy : v = vy := List.inj_on_of_nodup_map hg.1 hv hvy (by rw [h2, hiy])
          have hlw : l ∈ listInsert v.neighbours vx.location := by
            rw [← @edgeUpd_neighbours_second x.name y.name vy.location vx.location v h1 h2,
              ← hF, hveq]
            exact hl
          rcases mem_listInsert.mp hlw with hmem | hmem
          · exact hold l hmem
          · refine ⟨F vx, List.mem_map_of_mem F hvx, ?_, ?_, ?_⟩
            · rw [hF, edgeUpd_item, hix, hmem, hlx]
            · rw [hF, edgeUpd_location, hmem]
            · rw [hF, edgeUpd_neighbours_first hix]
              rw [hwloc, hvvy]
              exact mem_listInsert.mpr (Or.inr rfl)
        · have hlw : l ∈ v.neighbours := by
            rw [← hveq, hF, edgeUpd_of_ne h1 h2] at hl
            exact hl
          exact hold l hlw

/-! ### Invariants under operation sequences (claim C7) -/

/-- One graph-building call: `add_vertex(l)` or `add_edge(l1, l2)`. -/
inductive GOp where
  | addV (l : Location)
  | addE (l1 l2 : Location)

/-- Run one operation (an `add_edge` whose `ValueError` escapes leaves the graph value
unchanged, see `addEdgeOrKeep`). -/
def applyOp (g : Graph) : GOp → Graph
  | .addV l => g.addVertex l
  | .addE l1 l2 => g.addEdgeOrKeep l1 l2

/-- Run a sequence of operations from the empty graph. -/
def applyOps (ops : List GOp) : Graph := ops.foldl applyOp Graph.empty

/-- The precondition of claim C7 on each `add_edge` call: the two entities are distinct
and (names being unique identities) their names differ. -/
def edgeOkB : GOp → Bool
  | .addV _ => true
  | .addE l1 l2 => l1 != l2 && l1.name != l2.name

lemma inv_foldl (ops : List GOp) : ∀ g : Graph, GraphInv g →
    (∀ op ∈ ops, edgeOkB op = true) → GraphInv (ops.foldl applyOp g) := by
  induction ops with
  | nil => intro g hg _; exact hg
  | cons op ops ih =>
      intro g hg hops
      rw [List.foldl_cons]
      refine ih (applyOp g op) ?_ (fun o ho => hops o (List.mem_cons_of_mem _ ho))
      cases op with
      | addV l => exact inv_addVertex hg l
      | addE l1 l2 =>
          have hok := hops _ (List.mem_cons_self _ _)
          have hname : l1.name ≠ l2.name := by
            have : ¬l1 = l2 ∧ ¬l1.name = l2.name := by simpa [edgeOkB] using hok
            exact this.2
          exact inv_addEdgeOrKeep hg hname

/-- Claim C7 (confirmed): starting from the empty graph, after any sequence of
`add_vertex` and `add_edge` calls — each `add_edge` between distinct entities with
distinct names — no vertex is its own neighbour, and adjacency is symmetric: every
neighbour `l` of a vertex `v` is itself a stored vertex whose neighbour set contains
`v`'s location. -/
theorem graph_ops_invariants (ops : List GOp) (h : ∀ op ∈ ops, edgeOkB op = true) :
    NoSelfLoop (applyOps ops) ∧ SymAdj (applyOps ops) :=
  (inv_foldl ops Graph.empty inv_empty h).2

def c7A : Location := ⟨"a", 0, 0, .subwayStation⟩
def c7B : Location := ⟨"b", 1, 0, .subwayStation⟩
def c7Ops : List GOp := [.addV c7A, .addV c7B, .addE c7A c7B, .addE c7A c7B]

/-- Witness for C7 on a concrete operation sequence (two stations, one line edge added
twice). -/
theorem graph_ops_invariants_witness :
    NoSelfLoop (applyOps c7Ops) ∧ SymAdj (applyOps c7Ops) :=
  graph_ops_invariants c7Ops (by decide)

/-! ### ProximityGraph construction (claim C6) -/

lemma adjacent_iff_mem {g : Graph} {A B : Location}
    (hB : (g.findVertex B.name).isSome = true) :
    g.adjacent A B = true ↔ B ∈ g.getNeighbors A := by
  unfold Graph.adjacent Graph.getNeighbors
  cases hA : g.findVertex A.name with
  | none =>
      cases hfB : g.findVertex B.name with
      | none => rw [hfB] at hB; exact absurd hB (by simp)
      | some w => simp
  | some v =>
      cases hfB : g.findVertex B.name with
      | none => rw [hfB] at hB; exact absurd hB (by simp)
      | some w =>
          show v.neighbours.contains B = true ↔ B ∈ v.neighbours
          exact List.elem_iff

lemma nbrs_nil_adjacent_false {g : Graph} (h : ∀ v ∈ g.vertices, v.neighbours = [])
    (A B : Location) : g.adjacent A B = false := by
  unfold Graph.adjacent
  cases hA : g.findVertex A.name with
  | none => rfl
  | some v =>
      cases hB : g.findVertex B.name with
      | none => rfl
      | some w =>
          show v.neighbours.contains B = false
          rw [h v (List.mem_of_find?_eq_some hA)]
          rfl

lemma addEdgeOrKeep_adjacent_iff {g : Graph} (hg : GNames g) {x y A B : Location}
    (hx : x ∈ g.allLocations) (hy : y ∈ g.allLocations) (hxy : x.name ≠ y.name)
    (hA : A ∈ g.allLocations) (hB : B ∈ g.allLocations) (hAB : A ≠ B) :
    ((g.addEdgeOrKeep x y).adjacent A B = true) ↔
      (g.adjacent A B = true ∨ (x = A ∧ y = B) ∨ (x = B ∧ y = A)) := by
  have hBsome0 : (g.findVertex B.name).isSome = true := by
    obtain ⟨v, hv, -⟩ := findVertex_stored hg hB
    rw [hv]; rfl
  have hBsome : ((g.addEdgeOrKeep x y).findVertex B.name).isSome = true := by
    have hg' := gnames_addEdgeOrKeep hg x y
    have hB' : B ∈ (g.addEdgeOrKeep x y).allLocations := by
      rw [addEdgeOrKeep_allLocations]; exact hB
    obtain ⟨v, hv, -⟩ := findVertex_stored hg' hB'
    rw [hv]; rfl
  rw [adjacent_iff_mem hBsome, getNeighbors_addEdgeOrKeep hg hx hy hxy A]
  by_cases h1 : A.name = x.name
  · have hAx : A = x := stored_name_inj hg hA hx h1
    rw [if_pos h1, mem_listInsert]
    constructor
    · rintro (hm | hm)
      · exact Or.inl ((adjacent_iff_mem hBsome0).mpr hm)
      · exact Or.inr (Or.inl ⟨hAx.symm, hm.symm⟩)
    · rintro (hm | ⟨-, hm⟩ | ⟨hm, -⟩)
      · exact Or.inl ((adjacent_iff_mem hBsome0).mp hm)
      · exact Or.inr hm.symm
      · exact absurd (hAx.trans hm) hAB
  · by_cases h2 : A.name = y.name
    · have hAy : A = y := stored_name_inj hg hA hy h2
      rw [if_neg h1, if_pos h2, mem_listInsert]
      constructor
      · rintro (hm | hm)
        · exact Or.inl ((adjacent_iff_mem hBsome0).mpr hm)
        · exact Or.inr (Or.inr ⟨hm.symm, hAy.symm⟩)
      · rintro (hm | ⟨hm, -⟩ | ⟨hm, -⟩)
        · exact Or.inl ((adjacent_iff_mem hBsome0).mp hm)
        · exact absurd (congrArg Location.name hm.symm) h1
        · exact Or.inr hm.symm
    · rw [if_neg h1, if_neg h2]
      constructor
      · intro hm
        exact Or.inl ((adjacent_iff_mem hBsome0).mpr hm)
      · rintro (hm | ⟨hm, -⟩ | ⟨-, hm⟩)
        · exact (adjacent_iff_mem hBsome0).mp hm
        · exact absurd (congrArg Location.name hm.symm) h1
        · exact absurd (congrArg Location.name hm.symm) h2

lemma edgePass_adjacent (dist : Location → Location → ℝ) (ps : List (Location × Location)) :
    ∀ g : Graph, GNames g →
      (∀ p ∈ ps, p.1 ∈ g.allLocations ∧ p.2 ∈ g.allLocations ∧ p.1.name ≠ p.2.name) →
      ∀ A B : Location, A ∈ g.allLocations → B ∈ g.allLocations → A ≠ B →
      ((edgePass dist ps g).adjacent A B = true ↔
        (g.adjacent A B = true ∨ ∃ p ∈ ps, dist p.1 p.2 ≤ 1500 ∧
          ((p.1 = A ∧ p.2 = B) ∨ (p.1 = B ∧ p.2 = A)))) := by
  induction ps with
  | nil =>
      intro g _ _ A B _ _ _
      simp [edgePass]
  | cons p ps ih =>
      intro g hg hps A B hA hB hAB
      have hp := hps p (List.mem_cons_self _ _)
      by_cases hd : dist p.1 p.2 ≤ 1500
      · have hstep : edgePass dist (p :: ps) g = edgePass dist ps (g.addEdgeOrKeep p.1 p.2) := by
          unfold edgePass
          rw [List.foldl_cons, if_pos hd]
        have hg' : GNames (g.addEdgeOrKeep p.1 p.2) := gnames_addEdgeOrKeep hg _ _
        have hloc' : (g.addEdgeOrKeep p.1 p.2).allLocations = g.allLocations :=
          addEdgeOrKeep_allLocations g _ _
        have hps' : ∀ q ∈ ps, q.1 ∈ (g.addEdgeOrKeep p.1 p.2).allLocations ∧
            q.2 ∈ (g.addEdgeOrKeep p.1 p.2).allLocations ∧ q.1.name ≠ q.2.name := by
          rw [hloc']
          exact fun q hq => hps q (List.mem_cons_of_mem _ hq)
        rw [hstep, ih (g.addEdgeOrKeep p.1 p.2) hg' hps' A B (by rw [hloc']; exact hA)
            (by rw [hloc']; exact hB) hAB,
          addEdgeOrKeep_adjacent_iff hg hp.1 hp.2.1 hp.2.2 hA hB hAB]
        constructor
        · rintro ((hm | hm) | ⟨q, hq, hqd, hqm⟩)
          · exact Or.inl hm
          · exact Or.inr ⟨p, List.mem_cons_self _ _, hd, hm⟩
          · exact Or.inr ⟨q, List.mem_cons_of_mem _ hq, hqd, hqm⟩
        · rintro (hm | ⟨q, hq, hqd, hqm⟩)
          · exact Or.inl (Or.inl hm)
          · rcases List.mem_cons.mp hq with hq | hq
            · exact Or.inl (Or.inr (hq ▸ hqm))
            · exact Or.inr ⟨q, hq, hqd, hqm⟩
      · have hstep : edgePass dist (p :: ps) g = edgePass dist ps g := by
          unfold edgePass
          rw [List.foldl_cons, if_neg hd]
        rw [hstep, ih g hg (fun q hq => hps q (List.mem_cons_of_mem _ hq)) A B hA hB hAB]
        constructor
        · rintro (hm | ⟨q, hq, hqd, hqm⟩)
          · exact Or.inl hm
          · exact Or.inr ⟨q, List.mem_cons_of_mem _ hq, hqd, hqm⟩
        · rintro (hm | ⟨q, hq, hqd, hqm⟩)
          · exact Or.inl hm
          · rcases List.mem_cons.mp hq with hq | hq
            · exact absurd (hq ▸ hqd) hd
            · exact Or.inr ⟨q, hq, hqd, hqm⟩

lemma mem_upairs_mem : ∀ {l : List Location} {p : Location × Location},
    p ∈ upairs l → p.1 ∈ l ∧ p.2 ∈ l := by
  intro l
  induction l with
  | nil => intro p hp; exact absurd hp (List.not_mem_nil p)
  | cons x xs ih =>
      intro p hp
      unfold upairs at hp
      rcases List.mem_append.mp hp with hp | hp
      · obtain ⟨y, hy, he⟩ := List.mem_map.mp hp
        rw [← he]
        exact ⟨List.mem_cons_self _ _, List.mem_cons_of_mem _ hy⟩
      · have h := ih hp
        exact ⟨List.mem_cons_of_mem _ h.1, List.mem_cons_of_mem _ h.2⟩

lemma upairs_names_ne : ∀ {l : List Location}, (l.map Location.name).Nodup →
    ∀ p ∈ upairs l, p.1.name ≠ p.2.name := by
  intro l
  induction l with
  | nil => intro _ p hp; exact absurd hp (List.not_mem_nil p)
  | cons x xs ih =>
      intro hnd p hp
      have hnd' : x.name ∉ xs.map Location.name ∧ (xs.map Location.name).Nodup := by
        rw [List.map_cons, List.nodup_cons] at hnd
        exact hnd
      unfold upairs at hp
      rcases List.mem_append.mp hp with hp | hp
      · obtain ⟨y, hy, he⟩ := List.mem_map.mp hp
        rw [← he]
        intro heq
        exact hnd'.1 (heq ▸ List.mem_map_of_mem Location.name hy)
      · exact ih hnd'.2 p hp

lemma upairs_complete : ∀ {l : List Location} {A B : Location}, A ∈ l → B ∈ l → A ≠ B →
    ((A, B) ∈ upairs l ∨ (B, A) ∈ upairs l) := by
  intro l
  induction l with
  | nil => intro A B hA _ _; exact absurd hA (List.not_mem_nil A)
  | cons x xs ih =>
      intro A B hA hB hAB
      unfold upairs
      rcases List.mem_cons.mp hA with hA | hA
      · have hBx : B ∈ xs := by
          rcases List.mem_cons.mp hB with hB | hB
          · exact absurd (hA.trans hB.symm) hAB
          · exact hB
        exact Or.inl (List.mem_append_left _
          (hA ▸ List.mem_map_of_mem (fun y => (x, y)) hBx))
      · rcases List.mem_cons.mp hB with hB | hB
        · exact Or.inr (List.mem_append_left _
            (hB ▸ List.mem_map_of_mem (fun y => (x, y)) hA))
        · rcases ih hA hB hAB with h | h
          · exact Or.inl (List.mem_append_right _ h)
          · exact Or.inr (List.mem_append_right _ h)

/-- Claim C6 (confirmed): in the graph built by `load_city_graph` from loaded entities
with pairwise distinct names, two distinct vertices `A`, `B` are adjacent exactly when
the computed distance between them is at most the fixed threshold 1500 (pairs farther
apart get no edge).  Stated for every symmetric distance function — `get_distance`, the
haversine distance the source passes, is symmetric by `get_distance_self_and_comm`. -/
theorem city_graph_adjacent_iff_close (dist : Location → Location → ℝ)
    (hsym : ∀ a b, dist a b = dist b a) (locs : List Location)
    (hnodup : (locs.map Location.name).Nodup) (A B : Location)
    (hA : A ∈ locs) (hB : B ∈ locs) (hAB : A ≠ B) :
    ((buildCityGraph dist locs).adjacent A B = true) ↔ dist A B ≤ 1500 := by
  have hverts : (locs.foldl Graph.addVertex Graph.empty).vertices =
      locs.map (fun l => ⟨l.name, l, []⟩) := by
    have h := foldl_addVertex_vertices locs Graph.empty (fun l _ => rfl) hnodup
    simpa [Graph.empty] using h
  set g0 := locs.foldl Graph.addVertex Graph.empty with hg0
  have hcomp : Vertex.location ∘ (fun l => (⟨l.name, l, []⟩ : Vertex)) = id := rfl
  have hlocs : g0.allLocations = locs := by
    unfold Graph.allLocations
    rw [hverts, List.map_map, hcomp, List.map_id]
  have hgn : GNames g0 := by
    constructor
    · show (g0.vertices.map Vertex.item).Nodup
      rw [hverts, List.map_map]
      exact hnodup
    · intro v hv
      rw [hverts] at hv
      obtain ⟨l, hl, he⟩ := List.mem_map.mp hv
      rw [← he]
  have hnil : ∀ v ∈ g0.vertices, v.neighbours = [] := by
    intro v hv
    rw [hverts] at hv
    obtain ⟨l, hl, he⟩ := List.mem_map.mp hv
    rw [← he]
  have hadj0 : g0.adjacent A B = false := nbrs_nil_adjacent_false hnil A B
  have hAg : A ∈ g0.allLocations := by rw [hlocs]; exact hA
  have hBg : B ∈ g0.allLocations := by rw [hlocs]; exact hB
  have hps : ∀ p ∈ upairs g0.allLocations,
      p.1 ∈ g0.allLocations ∧ p.2 ∈ g0.allLocations ∧ p.1.name ≠ p.2.name := by
    intro p hp
    have hmm := mem_upairs_mem hp
    exact ⟨hmm.1, hmm.2, upairs_names_ne (by rw [hlocs]; exact hnodup) p hp⟩
  have hbuild : buildCityGraph dist locs = edgePass dist (upairs g0.allLocations) g0 := rfl
  rw [hbuild, edgePass_adjacent dist _ g0 hgn hps A B hAg hBg hAB]
  constructor
  · rintro (hm | ⟨p, hp, hpd, hpm⟩)
    · rw [hadj0] at hm
      exact absurd hm (by simp)
    · rcases hpm with ⟨h1, h2⟩ | ⟨h1, h2⟩
      · rw [← h1, ← h2]
        exact hpd
      · rw [hsym A B, ← h1, ← h2]
        exact hpd
  · intro hd
    right
    rcases upairs_complete hAg hBg hAB with hm | hm
    · exact ⟨(A, B), hm, hd, Or.inl ⟨rfl, rfl⟩⟩
    · exact ⟨(B, A), hm, by rw [hsym B A]; exact hd, Or.inr ⟨rfl, rfl⟩⟩

def c6P : Location := ⟨"p", 0, 0, .landmark⟩
def c6Q : Location := ⟨"q", 1, 0, .landmark⟩

/-- Witness for C6 with the constant-zero distance on two entities: the edge is added. -/
theorem city_graph_adjacent_iff_close_witness :
    ((buildCityGraph (fun _ _ => (0 : ℝ)) [c6P, c6Q]).adjacent c6P c6Q = true) ↔
      (0 : ℝ) ≤ 1500 :=
  city_graph_adjacent_iff_close (fun _ _ => (0 : ℝ)) (fun _ _ => rfl) [c6P, c6Q]
    (by decide) c6P c6Q (by decide) (by decide) (by decide)

/-! ### NearestStationFinder (claim C5)

`find_closest_subway`'s adjacent-station fast path applies `isinstance(neighbor,
SubwayStation)` to `_Vertex` objects, so it never fires; control always falls through
to `estimate_nearest_subway`, whose first statement `visited.add(starter)` raises
`TypeError` on the unhashable station.  The function therefore returns no station on
any input — neither the adjacent station the claim and the docstring promise, nor any
hill-climb result: the whole hill-climb after the `visited.add` is dead code. -/

def c5P : Location := ⟨"p", 0, 0, .landmark⟩
def c5T : Location := ⟨"t", 1, 0, .subwayStation⟩
def c5S0 : Location := ⟨"s0", 50, 0, .subwayStation⟩

def c5City : Graph := mkGraph [c5P, c5T, c5S0] [(c5P, c5T)]

def c5Subway : Graph := mkGraph [c5S0, c5T] []

def c5dist : Location → Location → ℚ := fun a b => (a.lat - b.lat) * (a.lat - b.lat)

/-- Claim C5: refuted on the code — station T is directly adjacent to P in the proximity
graph, yet `find_closest_subway(P)` does not return T (or any station): the `isinstance`
branch is dead code and the hill-climb raises `TypeError` at its very first statement,
so neither the claimed adjacent-station return nor the claimed monotonic, terminating
hill-climb is ever executed. -/
theorem find_closest_subway_raises :
    c5City.adjacent c5P c5T = true ∧ c5T.role = .subwayStation ∧
      findClosestSubway c5dist c5City c5Subway 1 c5P = some (.error .typeError) :=
  ⟨rfl, rfl, rfl⟩
